import Mathlib

/-!
Verification of the nonlinear correlation-solving core of pyResToolbox
(`pyrestoolbox/pyrestoolbox.py`) against its natural-language specification.

Modelling conventions.
* Machine floats are modelled by exact rationals (`ℚ`).  All control flow
  (loop bounds, convergence tests, branch conditions, early returns) is
  translated verbatim from the Python source; arithmetic is exact.
* Transcendental kernels (the DAK residual `Eq2p7`, the Hall-Yarborough
  `fy`/`dfydy`, the `pbub`/`rsbub` correlations, the closed-form Z-factor
  expressions) contain `exp`, `log` and non-integer powers and have no
  exact rational form.  Each is abstracted as an explicit function
  parameter of the surrounding solver; theorems quantify over the kernel
  or instantiate it with a concrete rational-valued function.  The solver
  logic itself - the subject of the claims - is translated line by line.
* `sys.exit()` aborts, iteration-budget aborts and Python `NameError`
  failures are modelled with `Option`/`Except` result types
  (`none` / `.error` = the call does not return a value).
* Loops bounded by an iteration counter are modelled by structural
  recursion on a fuel argument whose initial value is the number of loop
  passes the source can complete before its counter check fires.
-/

namespace PyResToolbox

/-! ### Enumerations (pyrestoolbox.py lines 32-49) -/

/-- `c_method`: gas critical-property calculation method. -/
inductive c_method
  | PMC
  | SUT
deriving DecidableEq

/-- `pb_method`: bubble-point calculation method. -/
inductive pb_method
  | STAN
  | VALMC
  | VELAR
deriving DecidableEq

/-! ### Bisection solver (pyrestoolbox.py lines 76-95) -/

/-- The `while` loop of `bisect_solve`.

State per pass: bracket `[xmin, xmax]`, error at the current high bound
`err_hi`, error at the last tested midpoint `err_mid` (initially the
literal `1`), and `mid_val`, the value the function would return if the
loop exited now.  `mid_val` starts out unassigned (Python would raise
`NameError` on `return mid_val` if the loop body never ran), modelled as
`none`.  The source aborts via `sys.exit()` once `iternum > 99`, i.e. on
its 100th pass, so 99 full passes are possible: `fuel` starts at 99 and
exhausting it is the abort (`none`).  The source's `err_lo` variable is
assigned (`f(xmin)`, then `err_mid` in the raise branch) but never read,
so it is omitted.

Note the raise-`xmin` branch: after the sign test `err_hi * err_mid < 0`
the source sets `xmin = mid_val` and then `mid_val = (mid_val + xmax)/2`,
nudging the candidate return value past the midpoint whose error was
actually tested. -/
def bisectLoop (f : ℚ → ℚ) (rtol : ℚ) :
    ℕ → ℚ → ℚ → ℚ → ℚ → Option ℚ → Option ℚ
  | fuel, xmin, xmax, err_hi, err_mid, mid_val =>
    if |err_mid| ≤ rtol then mid_val
    else
      match fuel with
      | 0 => none
      | fuel + 1 =>
        let mid := (xmax + xmin) / 2
        let e := f mid
        if err_hi * e < 0 then
          bisectLoop f rtol fuel mid xmax err_hi e (some ((mid + xmax) / 2))
        else
          bisectLoop f rtol fuel xmin mid e e (some mid)

/-- `bisect_solve(args, f, xmin, xmax, rtol)` (pyrestoolbox.py lines
76-95).  The Python `args` tuple is folded into the closure `f`.  Result
`none` means the call does not return a value (the `sys.exit()` abort, or
the `NameError` on `return mid_val` when the loop body never runs because
`|1| ≤ rtol`). -/
def bisect_solve (f : ℚ → ℚ) (xmin xmax rtol : ℚ) : Option ℚ :=
  bisectLoop f rtol 99 xmin xmax (f xmax) 1 none

/-! ### Critical property resolver `gas_tc_pc` (pyrestoolbox.py lines 217-266) -/

/-- The correlation dispatch `if cmethod == 'PMC' ... elif cmethod == 'SUT'`
inside `gas_tc_pc`.  The two correlation bodies (lines 231-256) involve
`np.sqrt` and non-integer powers, so they are abstracted as the function
parameters `pmc` and `sut` from `(sg, n2, co2, h2s)` to `(tpc, ppc)`. -/
def gas_tc_pc_corr (pmc sut : ℚ → ℚ → ℚ → ℚ → ℚ × ℚ)
    (sg n2 co2 h2s : ℚ) : c_method → ℚ × ℚ
  | c_method.PMC => pmc sg n2 co2 h2s
  | c_method.SUT => sut sg n2 co2 h2s

/-- `gas_tc_pc(sg, n2, co2, h2s, cmethod, tc, pc)` (pyrestoolbox.py lines
217-266).  The short-circuit is the source's `if tc*pc > 0: return
(tc,pc)` (line 228).  Otherwise the selected correlation runs and each
positive single override replaces the corresponding resolved value
(lines 262-265).  The string-dispatch failure branch (unknown `cmethod`,
`sys.exit()`) is outside the `c_method` enumeration and not modelled. -/
def gas_tc_pc (pmc sut : ℚ → ℚ → ℚ → ℚ → ℚ × ℚ)
    (sg n2 co2 h2s : ℚ) (cm : c_method) (tc pc : ℚ) : ℚ × ℚ :=
  if 0 < tc * pc then (tc, pc)
  else
    let r := gas_tc_pc_corr pmc sut sg n2 co2 h2s cm
    (if 0 < tc then tc else r.1, if 0 < pc then pc else r.2)

/-! ### Shapes of numpy inputs and outputs of `gas_z` -/

/-- A pressure argument after `np.asarray`: a 0-d scalar or a 1-d array. -/
inductive NpIn
  | scal (q : ℚ)
  | arr (qs : List ℚ)
deriving DecidableEq

/-- A `gas_z` result: the non-convergence sentinel string
`"100 Z iterations - halted"`, a scalar, or an array. -/
inductive ZRes
  | sentinel
  | scal (q : ℚ)
  | arr (qs : List ℚ)
deriving DecidableEq

/-! ### DAK Z-factor algorithm `zdak` (pyrestoolbox.py lines 325-380) -/

/-- The secant `while abs(z2 - z) > 0.0001` loop of `zdak`.  `eq2p7`
abstracts `Eq2p7(pr, tr, rhor, a)` as a function of `rhor` alone: the
source body of `Eq2p7` (line 330) reads only `tr`, `rhor` and the
constant vector `a` (`pr` is an unused parameter), and `tr` is fixed for
one `zdak` call; it contains `np.exp`, hence the abstraction.

The source returns the string `"100 Z iterations - halted"` from the
whole of `zdak` once `ii > 100`, i.e. on the loop's 101st pass, so 100
full passes are possible: `fuel` starts at 100 and exhausting it yields
`none` (the sentinel).  On exit the source appends `z` (not `z2`) to
`zout`. -/
def zdakLoop (eq2p7 : ℚ → ℚ) :
    ℕ → ℚ → ℚ → ℚ → ℚ → ℚ → ℚ → ℚ → Option ℚ
  | fuel, rhor, z, error1, rhor2, z2, error2, m =>
    if |z2 - z| ≤ 1/10000 then some z
    else
      match fuel with
      | 0 => none
      | fuel + 1 =>
        let rhorN := rhor2
        let zN := z2
        let error1N := error2
        let rhor2N := (m * rhor2 - error2) / m
        let z2N := eq2p7 rhor2N
        let error2N := z2N - zN
        let drhor2N := rhor2N - rhorN
        let mN := (error2N - error1N) / drhor2N
        zdakLoop eq2p7 fuel rhorN zN error1N rhor2N z2N error2N mN

/-- One element of the `for p in ps` loop of `zdak` (lines 341-376):
the two-evaluation prelude (lines 346-359) followed by the secant loop.
`none` = this element hits the 100-iteration budget and the source
returns the sentinel string for the whole call. -/
def zdak_elem (eq2p7 : ℚ → ℚ) (pc tr p : ℚ) : Option ℚ :=
  let pr := p / pc
  let z : ℚ := 1
  let rhor := 27/100 * pr / (tr * z)
  let z2 := eq2p7 rhor
  let rhor2 := 27/100 * pr / (tr * z2)
  let error1 := z2 - z
  let zB := z2
  let z2B := eq2p7 rhor2
  let error2 := z2B - zB
  let drhor2 := rhor2 - rhor
  let m := (error2 - error1) / drhor2
  zdakLoop eq2p7 100 rhor zB error1 rhor2 z2B error2 m

/-- The element loop of `zdak` over a pressure list.  A `none` from any
element is the source's `return("100 Z iterations - halted")` executed
inside the loop: it abandons the whole call, discarding `zout`. -/
def zdak_list (eq2p7 : ℚ → ℚ) (pc tr : ℚ) : List ℚ → Option (List ℚ)
  | [] => some []
  | p :: ps =>
    match zdak_elem eq2p7 pc tr p with
    | none => none
    | some z => (zdak_list eq2p7 pc tr ps).map (fun zs => z :: zs)

/-- `zdak(p, degf, sg, tc, pc)` (lines 325-380).  `if p.size == 1` the
source sets `single_p`, loops over `ps = [p]` and returns `zout[0]`.  For
a 0-d scalar input the arithmetic yields numpy scalars, so `zout[0]` is a
scalar.  For a one-element 1-d input, `ps = [p]` keeps the ndarray
itself: the loop variable is the shape-(1,) array, every operation stays
shape-(1,), and `zout[0]` is the one-element array - the input shape is
preserved (the `NpIn.arr [q]` case is listed separately to record that
distinct code path; elementwise over exact rationals its outcome
coincides with the general list case).  Non-convergence still returns
the sentinel string for the whole call. -/
def zdak_model (eq2p7 : ℚ → ℚ) (pc tr : ℚ) : NpIn → ZRes
  | NpIn.scal q =>
    match zdak_elem eq2p7 pc tr q with
    | some z => ZRes.scal z
    | none => ZRes.sentinel
  | NpIn.arr [q] =>
    match zdak_elem eq2p7 pc tr q with
    | some z => ZRes.arr [z]
    | none => ZRes.sentinel
  | NpIn.arr qs =>
    match zdak_list eq2p7 pc tr qs with
    | some zs => ZRes.arr zs
    | none => ZRes.sentinel

/-! ### Linearized Z-factor algorithm `z_lin` (pyrestoolbox.py lines 307-323) -/

/-- `z_lin(p, degf, sg, tc, pc)` (lines 307-323).  The body is one
vectorized numpy expression (abstracted as `zl`, it contains `np.exp` and
non-integer powers) applied elementwise; there is no `single_p`
special-casing, so the input shape is preserved exactly - a one-element
array comes back as a one-element array. -/
def z_lin_model (zl : ℚ → ℚ) : NpIn → ZRes
  | NpIn.scal q => ZRes.scal (zl q)
  | NpIn.arr qs => ZRes.arr (qs.map zl)

/-! ### Hall-Yarborough Z-factor algorithm `z_hy` (pyrestoolbox.py lines 383-432) -/

/-- The Newton-style update of `z_hy`'s inner loop, source line 423:
`y -= f*dfydy(y)`.  At that point the variable `f` holds `fy(y)` for the
current `y`, so the update is `y ← y - fy(y) * dfydy(y)`: the derivative
is MULTIPLIED, not divided. -/
def hyUpdate (fy dfy : ℚ → ℚ) (y : ℚ) : ℚ :=
  y - fy y * dfy y

/-- Modelled from the spec: the Newton-Raphson update
`y ← y − f(y)/f'(y)` that section 4.3 (NewtonRaphson) prescribes for the
Hall-Yarborough solver.  Stated only to compare with `hyUpdate`, the
update the source actually performs. -/
def newtonUpdate (fy dfy : ℚ → ℚ) (y : ℚ) : ℚ :=
  y - fy y / dfy y

/-- The `while abs(f) > 1e-8` loop of `z_hy` (lines 421-427).  The source
breaks out (keeping the current `y`) at the end of its 100th pass
(`if i > 99: break` after the update), after printing a diagnostic; so
`fuel` starts at 100 and exhausting it returns the current `y`. -/
def hyLoop (fy dfy : ℚ → ℚ) : ℕ → ℚ → ℚ → ℚ
  | fuel, y, f =>
    if |f| ≤ 1/100000000 then y
    else
      match fuel with
      | 0 => y
      | fuel + 1 =>
        let y2 := hyUpdate fy dfy y
        hyLoop fy dfy fuel y2 (fy y2)

/-- One element of the `for p in ps` loop of `z_hy` (lines 393-428):
initialize `y = 0.001`, run the loop, append `alpha*ppr/y`.  `fy` and
`dfy` abstract Eqs 3.43/3.44 (functions of `ppr` and `y`; they contain
non-integer powers), `alpha` abstracts `0.06125*t*np.exp(-1.2*(1-t)**2)`. -/
def hy_elem (fy dfy : ℚ → ℚ → ℚ) (alpha pc : ℚ) (p : ℚ) : ℚ :=
  let ppr := p / pc
  let y := hyLoop (fy ppr) (dfy ppr) 100 (1/1000) (fy ppr (1/1000))
  alpha * ppr / y

/-- `z_hy(p, degf, sg, tc, pc)` (lines 383-432).  Same `p.size == 1`
path as `zdak`: `ps = [p]` keeps a one-element 1-d ndarray intact
(`ppr`, `y` and `alpha*ppr/y` all stay shape-(1,)), so `zout[0]` is the
one-element array and the input shape is preserved; a 0-d scalar input
yields a scalar.  Every element terminates (the budget break returns the
best available `y`), so every input yields a same-shape result. -/
def hy_model (fy dfy : ℚ → ℚ → ℚ) (alpha pc : ℚ) : NpIn → ZRes
  | NpIn.scal q => ZRes.scal (hy_elem fy dfy alpha pc q)
  | NpIn.arr [q] => ZRes.arr [hy_elem fy dfy alpha pc q]
  | NpIn.arr qs => ZRes.arr (qs.map (hy_elem fy dfy alpha pc))

/-! ### Pressure from P/Z: `PonZ2P` (pyrestoolbox.py lines 613-669) -/

/-- `PonZ2P_err(args, p)` (lines 636-639): the residual
`(p - ponz*z(p))/p`.  `zf` abstracts the scalar `gas_z` evaluation. -/
def PonZ2P_err (zf : ℚ → ℚ) (ponz p : ℚ) : ℚ :=
  (p - ponz * zf p) / p

/-- One element of `PonZ2P` (line 665): bisection of `PonZ2P_err` over
the bracket `[0.2*ponz, 1.8*ponz]` with tolerance `rtol`.  The source
loops this over the elements of `poverz` with the same scalar/one-element
shape handling as `gas_z`. -/
def PonZ2P_scalar (zf : ℚ → ℚ) (ponz rtol : ℚ) : Option ℚ :=
  bisect_solve (PonZ2P_err zf ponz) (ponz * (2/10)) (ponz * (18/10)) rtol

/-! ### Standing inverse `rsbub_standing` inside `Rsbub` (lines 1055-1059, 1083-1091) -/

/-- `rsbub_standing(api, degf, pb, sg_g, sg_sp)` (lines 1055-1059).  The
body computes `a`, `lnrsbub` and `rsbub` into locals (`logF`, `expF`,
`tenPow` abstract `np.log`, `np.exp` and `10**·`) and then executes
`return rsb` - but no name `rsb` is bound in this function or any
enclosing scope, so Python raises `NameError` instead of returning the
computed `rsbub`.  The computed locals cannot influence the outcome. -/
def rsbub_standing (logF expF tenPow : ℚ → ℚ)
    (api degf pb sg_g sg_sp : ℚ) : Except String ℚ :=
  let a := 91/100000 * degf - 125/10000 * api
  let lnrsbub := logF ((pb / (182/10) + 14/10) / tenPow a) / (83/100) + logF sg_g
  let rsbub := expF lnrsbub
  Except.error "NameError: rsb is not defined"

/-- The `Rsbub` entry path for `pbmethod = STAN` (lines 1034-1059, 1083-
1091): default `sg_sp`/`sg_g` from each other, guard
`pb*api*sg_g*degf == 0` (a `sys.exit()`), then call `rsbub_standing`.
The `np.isnan` post-check on line 1088 is unreachable for STAN because
the `NameError` propagates first. -/
def Rsbub_STAN (logF expF tenPow : ℚ → ℚ)
    (api degf pb sg_g sg_sp : ℚ) : Except String ℚ :=
  let sg_sp2 := if sg_sp = 0 then sg_g else sg_sp
  let sg_g2 := if sg_g = 0 then sg_sp2 else sg_g
  if pb * api * sg_g2 * degf = 0 then
    Except.error "exit: Need valid values for pb, api, sg_g for Standing Correlation"
  else
    rsbub_standing logF expF tenPow api degf pb sg_g2 sg_sp2

/-! ### Valko-McCain inverse `rsbub_valko_mccain` (lines 1061-1076) -/

/-- The Newton update of `rsbub_valko_mccain` (lines 1069-1073), with the
symmetric finite-difference slope
`dpbdrsb = pbub(rsb+0.5) - pbub(rsb-0.5)`.  The update sits in a
`try/except`; when the division fails the bare `except` evaluates
`rsbub_velarde(api, degf, pb, sg_g, sg_sp)` and DISCARDS the result
(neither assigned nor returned), leaving `rsb` unchanged - modelled by
the `dpbdrsb = 0` branch.  `pbubF` abstracts `rsb ↦ pbub(..., rsb)`. -/
def valmc_update (pbubF : ℚ → ℚ) (pb rsb pbcalc : ℚ) : ℚ :=
  let dpbdrsb := pbubF (rsb + 1/2) - pbubF (rsb - 1/2)
  if dpbdrsb = 0 then rsb else rsb - (pbcalc - pb) / dpbdrsb

/-- The `while abs(pb - pbcalc) > 1e-5` loop of `rsbub_valko_mccain`
(lines 1064-1076).  The source returns `rsbub_velarde(...)` once
`i > 100`, i.e. on the loop's 101st pass, so `fuel` starts at 100 and
exhausting it returns `velardeVal`.  Note the convergence test uses the
`pbcalc` computed from the PREVIOUS `rsb`, while `rsb` has already been
updated past it. -/
def valmcLoop (pbubF : ℚ → ℚ) (velardeVal pb : ℚ) : ℕ → ℚ → ℚ → ℚ
  | fuel, rsb, pbcalc =>
    if |pb - pbcalc| ≤ 1/100000 then rsb
    else
      match fuel with
      | 0 => velardeVal
      | fuel + 1 =>
        let pbcalcN := pbubF rsb
        let rsbN := valmc_update pbubF pb rsb pbcalcN
        valmcLoop pbubF velardeVal pb fuel rsbN pbcalcN

/-- `rsbub_valko_mccain(api, degf, pb, sg_g, sg_sp)` (lines 1061-1076):
first guess from the Velarde inverse (`velardeF`, abstracted: its body
has non-integer powers), initial `pbcalc = 0`, then the Newton loop. -/
def rsbub_valko_mccain_model (pbubF velardeF : ℚ → ℚ) (pb : ℚ) : ℚ :=
  valmcLoop pbubF (velardeF pb) pb 100 (velardeF pb) 0

/-! ### `make_bot` reconciliation loop and Rs column (lines 1432-1446, 1468-1480) -/

/-- The `while err > 0.01` reconciliation loop of `make_bot` (lines
1437-1445): scale the Rsb guess by `pb/pbcalc`, recompute the implied
bubble point, stop when `|pb - pbcalc| ≤ 0.01`.  The source calls
`sys.exit()` once `i > 100`, i.e. on the loop's 101st pass, so `fuel`
starts at 100 and exhausting it aborts (`none`).  On exit `rsb_old`
equals the last computed `rsbnew`. -/
def reconcileLoop (pbubF : ℚ → ℚ) (pb : ℚ) : ℕ → ℚ → ℚ → ℚ → Option ℚ
  | fuel, pbcalc, rsb_old, err =>
    if err ≤ 1/100 then some rsb_old
    else
      match fuel with
      | 0 => none
      | fuel + 1 =>
        let rsbnew := pb / pbcalc * rsb_old
        let pbcalcN := pbubF rsbnew
        reconcileLoop pbubF pb fuel pbcalcN rsbnew |pb - pbcalcN|

/-- The both-`pb`-and-`rsb`-supplied branch of `make_bot` (lines
1432-1446): initial implied `pbcalc = pbub(rsb)`, initial `err = 100`,
run the loop, and on success record `rsb_frac = rsbnew / rsb` together
with the reconciled `rsbnew`.  `pbubF` abstracts
`rsb ↦ pbub(degf, api, sg_sp, rsb, VALMC)`. -/
def reconcile (pbubF : ℚ → ℚ) (pb rsb : ℚ) : Option (ℚ × ℚ) :=
  (reconcileLoop pbubF pb 100 (pbubF rsb) rsb 100).map
    (fun rsbnew => (rsbnew / rsb, rsbnew))

/-- The construction of the `rss` column of the table (lines 1468-1480),
restricted to the Rs logic: for `p > pbi` append `rsb`; otherwise append
`Rsbub(p, method)/rsb_frac`, where the method is VALMC unless at least
two rows exist and the previous Rs is `≤ 10`, in which case VELAR.
`acc` is the reversed list built so far (`acc.head` = `rss[-1]`);
`rsbubF` abstracts `Rsbub(degf, api, sg_sp, p, method)`. -/
def make_bot_rss_go (rsbubF : pb_method → ℚ → ℚ) (rsb_frac pbi rsb : ℚ) :
    List ℚ → List ℚ → List ℚ
  | acc, [] => acc.reverse
  | acc, p :: ps =>
    if pbi < p then
      make_bot_rss_go rsbubF rsb_frac pbi rsb (rsb :: acc) ps
    else
      let r :=
        if 1 < acc.length then
          if 10 < acc.headD 0 then rsbubF pb_method.VALMC p / rsb_frac
          else rsbubF pb_method.VELAR p / rsb_frac
        else rsbubF pb_method.VALMC p / rsb_frac
      make_bot_rss_go rsbubF rsb_frac pbi rsb (r :: acc) ps

/-- The full `rss` column of `make_bot` for a given pressure list. -/
def make_bot_rss (rsbubF : pb_method → ℚ → ℚ) (rsb_frac pbi rsb : ℚ)
    (pressures : List ℚ) : List ℚ :=
  make_bot_rss_go rsbubF rsb_frac pbi rsb [] pressures

/-! ### Concrete kernels used by counterexamples and witnesses -/

/-- A concrete rational stand-in for the (transcendental) `Eq2p7` secant
kernel, used to exercise `zdak`'s control flow.  At the pressure-`1/2`
element's two evaluation points `1/2` and `1/3` it returns `3/2` twice,
so that element converges immediately with `z = 3/2`.  The
pressure-`2` element starts at `eqCex 2 = 1/2`, visits `4` and then the
points `(11 + (-2)^k)/3`, on which the formula `|3*r - 11|` makes each
secant error twice the previous one, so that element never converges. -/
def eqCex (r : ℚ) : ℚ :=
  if r = 1/2 ∨ r = 1/3 then 3/2
  else if r = 2 then 1/2
  else |3 * r - 11|

/-- Closed forms for the diverging `zdak` run on `eqCex`: `rhor2` after
pass `k`. -/
def zdakR (k : ℕ) : ℚ := (11 + (-2) ^ k) / 3

/-- Closed forms for the diverging `zdak` run on `eqCex`: `z2` after
pass `k`. -/
def zdakZ (k : ℕ) : ℚ := 2 ^ k

/-- Closed forms for the diverging `zdak` run on `eqCex`: `error2` after
pass `k`. -/
def zdakE (k : ℕ) : ℚ := 2 ^ k / 2

/-- Closed forms for the diverging `zdak` run on `eqCex`: `m` after
pass `k`. -/
def zdakM (k : ℕ) : ℚ := (-1) ^ k / 2

/-- A concrete rational stand-in for a scalar Z-factor evaluation, used
to exercise `PonZ2P`: `z = 1/2` at the true pressure `5` (so the target
`p/z` is `10`), `z = 1` at the upper bracket end `18`, and `z = 26/25`
at the first midpoint `10`. -/
def zfC6 (x : ℚ) : ℚ :=
  if x = 10 then 26/25
  else if x = 18 then 1
  else 1/2

/-! ### Helper lemmas for the bisection loop -/

/-- Loop exit: when the last tested error is inside tolerance the loop
returns the carried candidate. -/
theorem bisectLoop_exit {f : ℚ → ℚ} {rtol : ℚ} {fuel : ℕ}
    {xmin xmax err_hi err_mid : ℚ} {mid_val : Option ℚ}
    (h : |err_mid| ≤ rtol) :
    bisectLoop f rtol fuel xmin xmax err_hi err_mid mid_val = mid_val := by
  rw [bisectLoop.eq_def]
  exact if_pos h

/-- One pass through the raise-`xmin` branch of the bisection loop. -/
theorem bisectLoop_step_raise {f : ℚ → ℚ} {rtol xmin xmax err_hi err_mid : ℚ}
    {mid_val : Option ℚ} (fuel : ℕ) (mid e nud : ℚ)
    (h1 : ¬(|err_mid| ≤ rtol)) (hmid : (xmax + xmin) / 2 = mid)
    (he : f mid = e) (hsign : err_hi * e < 0) (hnud : (mid + xmax) / 2 = nud) :
    bisectLoop f rtol (fuel + 1) xmin xmax err_hi err_mid mid_val =
      bisectLoop f rtol fuel mid xmax err_hi e (some nud) := by
  subst hmid he hnud
  exact (if_neg h1).trans (if_pos hsign)

/-- One pass through the lower-`xmax` branch of the bisection loop. -/
theorem bisectLoop_step_lower {f : ℚ → ℚ} {rtol xmin xmax err_hi err_mid : ℚ}
    {mid_val : Option ℚ} (fuel : ℕ) (mid e : ℚ)
    (h1 : ¬(|err_mid| ≤ rtol)) (hmid : (xmax + xmin) / 2 = mid)
    (he : f mid = e) (hsign : ¬(err_hi * e < 0)) :
    bisectLoop f rtol (fuel + 1) xmin xmax err_hi err_mid mid_val =
      bisectLoop f rtol fuel xmin mid e e (some mid) := by
  subst hmid he
  exact (if_neg h1).trans (if_neg hsign)

/-- Any `some` result of the bisection loop is either the carried-in
candidate (with the carried-in error already inside tolerance) or there
is some tested midpoint whose error is inside tolerance. -/
theorem bisectLoop_some (f : ℚ → ℚ) (rtol : ℚ) :
    ∀ fuel xmin xmax err_hi err_mid mid_val v,
      bisectLoop f rtol fuel xmin xmax err_hi err_mid mid_val = some v →
      (|err_mid| ≤ rtol ∧ mid_val = some v) ∨ ∃ m, |f m| ≤ rtol := by
  intro fuel
  induction fuel with
  | zero =>
    intro xmin xmax err_hi err_mid mid_val v h
    rw [bisectLoop] at h
    by_cases hc : |err_mid| ≤ rtol
    · simp only [if_pos hc] at h
      exact Or.inl ⟨hc, h⟩
    · simp only [if_neg hc] at h
      exact absurd h (by simp)
  | succ fuel ih =>
    intro xmin xmax err_hi err_mid mid_val v h
    rw [bisectLoop] at h
    by_cases hc : |err_mid| ≤ rtol
    · simp only [if_pos hc] at h
      exact Or.inl ⟨hc, h⟩
    · simp only [if_neg hc] at h
      by_cases hs : err_hi * f ((xmax + xmin) / 2) < 0
      · simp only [if_pos hs] at h
        rcases ih _ _ _ _ _ _ h with ⟨h1, _⟩ | hm
        · exact Or.inr ⟨(xmax + xmin) / 2, h1⟩
        · exact Or.inr hm
      · simp only [if_neg hs] at h
        rcases ih _ _ _ _ _ _ h with ⟨h1, _⟩ | hm
        · exact Or.inr ⟨(xmax + xmin) / 2, h1⟩
        · exact Or.inr hm

/-- Whenever `bisect_solve` returns a value, some midpoint it tested has
error within tolerance (the returned value itself need not). -/
theorem bisect_solve_some (f : ℚ → ℚ) (xmin xmax rtol : ℚ) (v : ℚ)
    (h : bisect_solve f xmin xmax rtol = some v) : ∃ m, |f m| ≤ rtol := by
  rcases bisectLoop_some f rtol 99 xmin xmax (f xmax) 1 none v h with ⟨_, h2⟩ | hm
  · exact absurd h2 (by simp)
  · exact hm

/-! ### Claim C1 -/

/-- C1 counterexample.  For `f(x) = x - 26/5` (which changes sign across
the bracket `[0, 10]`) and `rtol = 3/10 > 0`, `bisect_solve` returns
`15/2`, yet `|f(15/2)| = 23/10 > rtol`: the returned value does not
satisfy the claimed tolerance contract.  (The final iteration takes the
raise branch, whose nudged `mid_val = (5 + 10)/2` is returned even
though the tolerance was checked at the midpoint `5`.) -/
theorem C1_counterexample :
    bisect_solve (fun x => x - 26/5) 0 10 (3/10) = some (15/2) ∧
    ((0:ℚ) - 26/5 < 0) ∧ (0 < (10:ℚ) - 26/5) ∧
    ¬(|(15/2 : ℚ) - 26/5| ≤ 3/10) := by
  refine ⟨?_, by norm_num, by norm_num, by norm_num [abs_le]⟩
  rw [bisect_solve, show ((10:ℚ) - 26/5) = 24/5 by norm_num]
  rw [bisectLoop_step_raise 98 5 (-1/5) (15/2) (by norm_num [abs_le]) (by norm_num)
    (by norm_num) (by norm_num) (by norm_num)]
  exact bisectLoop_exit (by norm_num [abs_le])

/-- C1, amended.  Whenever `bisect_solve` returns a value x*, some
midpoint tested during the search satisfies `|f(m)| ≤ rtol` - but x*
itself is only that midpoint when the final iteration took the
lower-`xmax` branch; after a final raise-`xmin` step the returned value
is the nudged `(mid + xmax)/2`, whose error can exceed `rtol`.  The
concrete spec example does hold: for `f(x) = x - 5` over `[0, 10]` with
`rtol = 1e-6` the solver returns exactly `5`. -/
theorem C1_theorem :
    (∀ (f : ℚ → ℚ) (xmin xmax rtol v : ℚ),
      bisect_solve f xmin xmax rtol = some v → ∃ m, |f m| ≤ rtol) ∧
    bisect_solve (fun x => x - 5) 0 10 (1/1000000) = some 5 := by
  constructor
  · exact fun f xmin xmax rtol v h => bisect_solve_some f xmin xmax rtol v h
  · rw [bisect_solve, show ((10:ℚ) - 5) = 5 by norm_num]
    rw [bisectLoop_step_lower 98 5 0 (by norm_num [abs_le]) (by norm_num)
      (by norm_num) (by norm_num)]
    exact bisectLoop_exit (by norm_num [abs_le])

/-- C1 witness: instantiating the amended theorem on the spec's own
example run. -/
theorem C1_witness : ∃ m : ℚ, |m - 5| ≤ 1/1000000 :=
  C1_theorem.1 (fun x => x - 5) 0 10 (1/1000000) 5 C1_theorem.2

/-! ### Claim C6 -/

/-- A concrete successful `PonZ2P` inversion with the constant kernel
`z = 1`: target `p/z = 5`, bracket `[1, 9]`, first midpoint `5` has
residual `0`, so the solver returns `5`. -/
theorem ponz2p_run_const : PonZ2P_scalar (fun _ => 1) 5 (1/10) = some 5 := by
  rw [PonZ2P_scalar, show (5:ℚ) * (2/10) = 1 by norm_num,
    show (5:ℚ) * (18/10) = 9 by norm_num, bisect_solve,
    show PonZ2P_err (fun _ => 1) 5 9 = 4/9 by norm_num [PonZ2P_err]]
  rw [bisectLoop_step_lower 98 5 0 (by norm_num [abs_le]) (by norm_num)
    (by norm_num [PonZ2P_err]) (by norm_num)]
  exact bisectLoop_exit (by norm_num [abs_le])

/-- C6 counterexample.  With the kernel `zfC6`, the pressure `p = 5` has
`z = zfC6 5 = 1/2`, so the target is `p/z = 10`; `PonZ2P` with
`rtol = 1/20` brackets `[2, 18]` and returns `14`, which is not within
`rtol` of `5` (neither `|14 - 5| ≤ rtol*5` nor relatively): the
round-trip property fails.  (The first midpoint `10` has residual
`-1/25`, inside tolerance, but the sign test routes through the raise
branch, which returns the nudged value `(10 + 18)/2 = 14`.) -/
theorem C6_counterexample :
    zfC6 5 = 1/2 ∧ (5:ℚ) / zfC6 5 = 10 ∧
    PonZ2P_scalar zfC6 10 (1/20) = some 14 ∧
    ¬(|(14:ℚ) - 5| ≤ (1/20) * 5) ∧ ¬(|((14:ℚ) - 5) / 5| ≤ 1/20) := by
  refine ⟨by norm_num [zfC6], by norm_num [zfC6], ?_, by norm_num [abs_le],
    by norm_num [abs_le]⟩
  rw [PonZ2P_scalar, show (10:ℚ) * (2/10) = 2 by norm_num,
    show (10:ℚ) * (18/10) = 18 by norm_num, bisect_solve,
    show PonZ2P_err zfC6 10 18 = 4/9 by norm_num [PonZ2P_err, zfC6]]
  rw [bisectLoop_step_raise 98 10 (-1/25) 14 (by norm_num [abs_le]) (by norm_num)
    (by norm_num [PonZ2P_err, zfC6]) (by norm_num) (by norm_num)]
  exact bisectLoop_exit (by norm_num [abs_le])

/-- C6, amended.  `PonZ2P` brackets the candidate in
`[0.2*(p/z), 1.8*(p/z)]` and bisects the residual
`(x - (p/z)*z(x))/x`; the original pressure `p` is an exact root of that
residual, and whenever the solver returns a value some tested midpoint
met the residual tolerance - but the returned pressure itself is not in
general within `rtol` of `p`. -/
theorem C6_theorem :
    (∀ (zf : ℚ → ℚ) (p : ℚ), zf p ≠ 0 → PonZ2P_err zf (p / zf p) p = 0) ∧
    (∀ (zf : ℚ → ℚ) (ponz rtol v : ℚ),
      PonZ2P_scalar zf ponz rtol = some v →
      ∃ m, |PonZ2P_err zf ponz m| ≤ rtol) := by
  constructor
  · intro zf p hz
    rw [PonZ2P_err, div_mul_cancel₀ p hz, sub_self, zero_div]
  · intro zf ponz rtol v h
    exact bisect_solve_some _ _ _ _ v h

/-- C6 witness: the residual vanishes at the true pressure for the
constant kernel, and the successful run from `ponz2p_run_const`
instantiates the tolerance conclusion. -/
theorem C6_witness :
    PonZ2P_err (fun _ => (1:ℚ)) (5 / 1) 5 = 0 ∧
    ∃ m, |PonZ2P_err (fun _ => (1:ℚ)) 5 m| ≤ 1/10 :=
  ⟨C6_theorem.1 (fun _ => 1) 5 (by norm_num),
   C6_theorem.2 (fun _ => 1) 5 (1/10) 5 ponz2p_run_const⟩

/-! ### Claim C7 -/

/-- C7.  If both overrides are positive, `gas_tc_pc` returns them
unchanged, with no correlation evaluated (the result is the same for
every correlation pair and composition); if exactly one override is
positive (the other left at the default `0`), only that value replaces
the corresponding correlation result, the other still comes from the
selected correlation. -/
theorem C7_theorem :
    (∀ pmc sut sg n2 co2 h2s cm (tc pc : ℚ), 0 < tc → 0 < pc →
      gas_tc_pc pmc sut sg n2 co2 h2s cm tc pc = (tc, pc)) ∧
    (∀ pmc sut sg n2 co2 h2s cm (tc : ℚ), 0 < tc →
      gas_tc_pc pmc sut sg n2 co2 h2s cm tc 0 =
        (tc, (gas_tc_pc_corr pmc sut sg n2 co2 h2s cm).2)) ∧
    (∀ pmc sut sg n2 co2 h2s cm (pc : ℚ), 0 < pc →
      gas_tc_pc pmc sut sg n2 co2 h2s cm 0 pc =
        ((gas_tc_pc_corr pmc sut sg n2 co2 h2s cm).1, pc)) := by
  refine ⟨fun pmc sut sg n2 co2 h2s cm tc pc htc hpc => ?_,
    fun pmc sut sg n2 co2 h2s cm tc htc => ?_,
    fun pmc sut sg n2 co2 h2s cm pc hpc => ?_⟩
  · rw [gas_tc_pc, if_pos (mul_pos htc hpc)]
  · rw [gas_tc_pc, if_neg (by norm_num)]
    simp only [if_pos htc, if_neg (lt_irrefl (0:ℚ))]
  · rw [gas_tc_pc, if_neg (by norm_num)]
    simp only [if_pos hpc, if_neg (lt_irrefl (0:ℚ))]

/-- C7 witness: a both-positive override pair is returned unchanged over
an arbitrary concrete correlation pair, and a `tc`-only override keeps
the correlation-resolved critical pressure. -/
theorem C7_witness :
    gas_tc_pc (fun _ _ _ _ => (999, 888)) (fun _ _ _ _ => (777, 666))
      (7/10) 0 0 0 c_method.PMC 300 600 = (300, 600) ∧
    gas_tc_pc (fun _ _ _ _ => (999, 888)) (fun _ _ _ _ => (777, 666))
      (7/10) 0 0 0 c_method.PMC 300 0 = (300, 888) := by
  constructor
  · exact C7_theorem.1 _ _ _ _ _ _ _ 300 600 (by norm_num) (by norm_num)
  · have h := C7_theorem.2.1 (fun _ _ _ _ => ((999:ℚ), (888:ℚ)))
      (fun _ _ _ _ => (777, 666)) (7/10) 0 0 0 c_method.PMC 300 (by norm_num)
    simpa [gas_tc_pc_corr] using h

/-! ### Claim C10 -/

/-- C10.  The short-circuit tests `tc*pc > 0`, not positivity of both
overrides: two negative overrides also satisfy it, so `gas_tc_pc`
returns the negative pair unchanged, for every correlation pair and
composition, without evaluating any correlation. -/
theorem C10_theorem :
    ∀ pmc sut sg n2 co2 h2s cm (tc pc : ℚ), tc < 0 → pc < 0 →
      gas_tc_pc pmc sut sg n2 co2 h2s cm tc pc = (tc, pc) := by
  intro pmc sut sg n2 co2 h2s cm tc pc htc hpc
  rw [gas_tc_pc, if_pos (mul_pos_of_neg_of_neg htc hpc)]

/-- C10 witness: `tc = -250`, `pc = -500` are returned unchanged. -/
theorem C10_witness :
    gas_tc_pc (fun _ _ _ _ => (999, 888)) (fun _ _ _ _ => (777, 666))
      (7/10) 0 0 0 c_method.SUT (-250) (-500) = (-250, -500) :=
  C10_theorem _ _ _ _ _ _ _ (-250) (-500) (by norm_num) (by norm_num)

/-! ### Claim C9 -/

/-- C9.  With `pb`, `api`, `sg_g`, `degf` all nonzero, the STAN path of
`Rsbub` passes its input guard and calls `rsbub_standing`, which
computes the Standing inverse into a local and then returns the unbound
name `rsb`: the call always raises `NameError` and never returns a
value, for every choice of the log/exp/power kernels. -/
theorem C9_theorem :
    ∀ (logF expF tenPow : ℚ → ℚ) (api degf pb sg_g sg_sp : ℚ),
      api ≠ 0 → degf ≠ 0 → pb ≠ 0 → sg_g ≠ 0 →
      Rsbub_STAN logF expF tenPow api degf pb sg_g sg_sp =
        Except.error "NameError: rsb is not defined" := by
  intro logF expF tenPow api degf pb sg_g sg_sp hapi hdegf hpb hsg
  simp only [Rsbub_STAN, rsbub_standing, if_neg hsg]
  rw [if_neg (mul_ne_zero (mul_ne_zero (mul_ne_zero hpb hapi) hsg) hdegf)]

/-- C9 witness: a fully concrete STAN call (api 30, degf 150, pb 3000,
sg_g 0.7) raises the NameError. -/
theorem C9_witness :
    Rsbub_STAN id id id 30 150 3000 (7/10) 0 =
      Except.error "NameError: rsb is not defined" :=
  C9_theorem id id id 30 150 3000 (7/10) 0 (by norm_num) (by norm_num)
    (by norm_num) (by norm_num)

/-! ### Helper lemmas for the reconciliation loop -/

/-- Loop exit of the `make_bot` reconciliation: convergence returns the
last computed `rsbnew`. -/
theorem reconcileLoop_exit {pbubF : ℚ → ℚ} {pb : ℚ} {fuel : ℕ}
    {pbcalc rsb_old err : ℚ} (h : err ≤ 1/100) :
    reconcileLoop pbubF pb fuel pbcalc rsb_old err = some rsb_old := by
  rw [reconcileLoop.eq_def]
  exact if_pos h

/-- One pass of the reconciliation loop, with the next state supplied
explicitly. -/
theorem reconcileLoop_step {pbubF : ℚ → ℚ} {pb pbcalc rsb_old err : ℚ}
    (fuel : ℕ) (rsbnew pbcalcN errN : ℚ) (h1 : ¬(err ≤ 1/100))
    (h2 : pb / pbcalc * rsb_old = rsbnew) (h3 : pbubF rsbnew = pbcalcN)
    (h4 : |pb - pbcalcN| = errN) :
    reconcileLoop pbubF pb (fuel + 1) pbcalc rsb_old err =
      reconcileLoop pbubF pb fuel pbcalcN rsbnew errN := by
  subst h2 h3 h4
  exact if_neg h1

/-- If the reconciliation loop returns a value while its carried error is
still above tolerance, the returned `rsbnew` has its implied bubble point
within `0.01` of the target. -/
theorem reconcileLoop_sound (pbubF : ℚ → ℚ) (pb : ℚ) :
    ∀ (fuel : ℕ) (pbcalc rsb_old err v : ℚ), 1/100 < err →
      reconcileLoop pbubF pb fuel pbcalc rsb_old err = some v →
      |pb - pbubF v| ≤ 1/100 := by
  intro fuel
  induction fuel with
  | zero =>
    intro pbcalc rsb_old err v hlt h
    rw [reconcileLoop, if_neg (not_le.mpr hlt)] at h
    exact absurd h (by simp)
  | succ fuel ih =>
    intro pbcalc rsb_old err v hlt h
    rw [reconcileLoop_step fuel (pb / pbcalc * rsb_old)
      (pbubF (pb / pbcalc * rsb_old)) |pb - pbubF (pb / pbcalc * rsb_old)|
      (not_le.mpr hlt) rfl rfl rfl] at h
    by_cases hc : |pb - pbubF (pb / pbcalc * rsb_old)| ≤ 1/100
    · rw [reconcileLoop_exit hc] at h
      obtain rfl : pb / pbcalc * rsb_old = v := by exact Option.some.inj h
      exact hc
    · exact ih _ _ _ v (not_le.mp hc) h

/-- With a constant implied bubble point that misses the target by more
than `0.01`, the reconciliation loop never converges and exhausts its
iteration budget. -/
theorem reconcileLoop_const_none (c pb : ℚ) (hc : ¬(|pb - c| ≤ 1/100)) :
    ∀ (fuel : ℕ) (rsb_old err : ℚ), ¬(err ≤ 1/100) →
      reconcileLoop (fun _ => c) pb fuel c rsb_old err = none := by
  intro fuel
  induction fuel with
  | zero =>
    intro rsb_old err h1
    rw [reconcileLoop, if_neg h1]
  | succ fuel ih =>
    intro rsb_old err h1
    rw [reconcileLoop_step fuel (pb / c * rsb_old) c |pb - c| h1 rfl rfl rfl]
    exact ih _ _ hc

/-- The Rs column of `make_bot`: above the bubble point every node is the
(user) `rsb`; at or below it every node is a `Rsbub` evaluation (VALMC or
VELAR, depending on history) divided by the recorded `rsb_frac`. -/
theorem make_bot_rss_go_spec (rsbubF : pb_method → ℚ → ℚ)
    (frac pbi rsb : ℚ) :
    ∀ (ps acc : List ℚ), ∃ rs,
      make_bot_rss_go rsbubF frac pbi rsb acc ps = acc.reverse ++ rs ∧
      List.Forall₂ (fun p r => (pbi < p → r = rsb) ∧
        (p ≤ pbi → r = rsbubF pb_method.VALMC p / frac ∨
          r = rsbubF pb_method.VELAR p / frac)) ps rs := by
  intro ps
  induction ps with
  | nil =>
    intro acc
    exact ⟨[], by simp [make_bot_rss_go], List.Forall₂.nil⟩
  | cons p ps ih =>
    intro acc
    by_cases hp : pbi < p
    · obtain ⟨rs, hgo, hfa⟩ := ih (rsb :: acc)
      refine ⟨rsb :: rs, ?_, ?_⟩
      · rw [make_bot_rss_go, if_pos hp, hgo]
        simp
      · exact List.Forall₂.cons
          ⟨fun _ => rfl, fun hle => absurd hp (not_lt.mpr hle)⟩ hfa
    · by_cases hlen : 1 < acc.length
      · by_cases h10 : 10 < acc.headD 0
        · obtain ⟨rs, hgo, hfa⟩ := ih (rsbubF pb_method.VALMC p / frac :: acc)
          refine ⟨rsbubF pb_method.VALMC p / frac :: rs, ?_, ?_⟩
          · rw [make_bot_rss_go, if_neg hp]
            simp only [if_pos hlen, if_pos h10]
            rw [hgo]
            simp
          · exact List.Forall₂.cons
              ⟨fun hlt => absurd hlt hp, fun _ => Or.inl rfl⟩ hfa
        · obtain ⟨rs, hgo, hfa⟩ := ih (rsbubF pb_method.VELAR p / frac :: acc)
          refine ⟨rsbubF pb_method.VELAR p / frac :: rs, ?_, ?_⟩
          · rw [make_bot_rss_go, if_neg hp]
            simp only [if_pos hlen, if_neg h10]
            rw [hgo]
            simp
          · exact List.Forall₂.cons
              ⟨fun hlt => absurd hlt hp, fun _ => Or.inr rfl⟩ hfa
      · obtain ⟨rs, hgo, hfa⟩ := ih (rsbubF pb_method.VALMC p / frac :: acc)
        refine ⟨rsbubF pb_method.VALMC p / frac :: rs, ?_, ?_⟩
        · rw [make_bot_rss_go, if_neg hp]
          simp only [if_neg hlen]
          rw [hgo]
          simp
        · exact List.Forall₂.cons
            ⟨fun hlt => absurd hlt hp, fun _ => Or.inl rfl⟩ hfa

/-! ### Claim C2 -/

/-- C2.  When both `pb > 0` and `rsb > 0` are supplied, the `make_bot`
reconciliation loop iterates Rsb-scaling by `pb/pbcalc` and, whenever it
returns (rather than aborting after its 101st pass), the reconciled
`rsbnew = rsb * rsb_frac` has correlation-implied bubble point within
`0.01` psia of the target, the recorded scale factor is
`rsb_frac = rsbnew / rsb`, and every at-or-below-bubble-point Rs node of
the table is a `Rsbub` evaluation divided by that one recorded factor
(nodes above get `rsb`).  Moreover (second conjunct) a correlation whose
implied Pb stays farther than `0.01` from the target makes the loop
exhaust its 100-pass budget and abort fatally. -/
theorem C2_theorem :
    (∀ (pbubF : ℚ → ℚ) (rsbubF : pb_method → ℚ → ℚ)
        (pb rsb frac rsbnew : ℚ) (pressures : List ℚ), 0 < pb → 0 < rsb →
      reconcile pbubF pb rsb = some (frac, rsbnew) →
      |pb - pbubF (rsb * frac)| ≤ 1/100 ∧ frac = rsbnew / rsb ∧
      List.Forall₂ (fun p r => (pb < p → r = rsb) ∧
        (p ≤ pb → r = rsbubF pb_method.VALMC p / frac ∨
          r = rsbubF pb_method.VELAR p / frac))
        pressures (make_bot_rss rsbubF frac pb rsb pressures)) ∧
    (∀ (c pb rsb : ℚ), ¬(|pb - c| ≤ 1/100) →
      reconcile (fun _ => c) pb rsb = none) := by
  constructor
  · intro pbubF rsbubF pb rsb frac rsbnew pressures hpb hrsb h
    rw [reconcile] at h
    obtain ⟨a, ha, hg⟩ := Option.map_eq_some'.mp h
    obtain ⟨hfrac, hnew⟩ := Prod.mk.injEq _ _ _ _ ▸ hg
    have hsound := reconcileLoop_sound pbubF pb 100 (pbubF rsb) rsb 100 a
      (by norm_num) ha
    have hfrac' : frac = a / rsb := hfrac.symm
    have hmul : rsb * frac = a := by
      rw [hfrac', mul_comm, div_mul_cancel₀ a (ne_of_gt hrsb)]
    refine ⟨by rw [hmul]; exact hsound, by rw [hfrac', hnew], ?_⟩
    obtain ⟨rs, hgo, hfa⟩ := make_bot_rss_go_spec rsbubF frac pb rsb pressures []
    rw [make_bot_rss, hgo]
    simpa using hfa
  · intro c pb rsb hc
    rw [reconcile, reconcileLoop_const_none c pb hc 100 rsb 100 (by norm_num)]
    rfl

/-- C2 witness: for the identity bubble-point correlation, target
`pb = 5` and `rsb = 4`, reconciliation converges in one pass to
`rsbnew = 5` with scale factor `5/4`; the table nodes `[3, 6]` get the
scaled inverse below `pb` and `rsb` above; and the constant correlation
`pbub = 7` aborts. -/
theorem C2_witness :
    |(5:ℚ) - 4 * (5/4)| ≤ 1/100 ∧ (5/4 : ℚ) = 5 / 4 ∧
    List.Forall₂ (fun p r => ((5:ℚ) < p → r = 4) ∧
      (p ≤ 5 → r = p / (5/4) ∨ r = p / (5/4)))
      [3, 6] (make_bot_rss (fun _ q => q) (5/4) 5 4 [3, 6]) ∧
    reconcile (fun _ => (7:ℚ)) 5 4 = none := by
  have hrec : reconcile (fun q => q) 5 4 = some (5/4, 5) := by
    rw [reconcile, reconcileLoop_step 99 5 5 0 (by norm_num) (by norm_num)
      (by norm_num) (by norm_num), reconcileLoop_exit (by norm_num)]
    norm_num
  have h := C2_theorem.1 (fun q => q) (fun _ q => q) 5 4 (5/4) 5 [3, 6]
    (by norm_num) (by norm_num) hrec
  exact ⟨h.1, h.2.1, h.2.2, C2_theorem.2 7 5 4 (by norm_num [abs_le])⟩

/-! ### Helper lemmas for the Valko-McCain Newton loop -/

/-- Loop exit of `rsbub_valko_mccain`: convergence returns the current
(already once-more-updated) `rsb`. -/
theorem valmcLoop_exit {pbubF : ℚ → ℚ} {velardeVal pb : ℚ} {fuel : ℕ}
    {rsb pbcalc : ℚ} (h : |pb - pbcalc| ≤ 1/100000) :
    valmcLoop pbubF velardeVal pb fuel rsb pbcalc = rsb := by
  rw [valmcLoop.eq_def]
  exact if_pos h

/-- Budget exhaustion of `rsbub_valko_mccain`: on the 101st pass the
source returns the Velarde fallback value. -/
theorem valmcLoop_zero {pbubF : ℚ → ℚ} {velardeVal pb : ℚ}
    {rsb pbcalc : ℚ} (h : ¬(|pb - pbcalc| ≤ 1/100000)) :
    valmcLoop pbubF velardeVal pb 0 rsb pbcalc = velardeVal := by
  rw [valmcLoop.eq_def]
  exact if_neg h

/-- One pass of the `rsbub_valko_mccain` Newton loop. -/
theorem valmcLoop_step {pbubF : ℚ → ℚ} {velardeVal pb : ℚ} (fuel : ℕ)
    {rsb pbcalc : ℚ} (h : ¬(|pb - pbcalc| ≤ 1/100000)) :
    valmcLoop pbubF velardeVal pb (fuel + 1) rsb pbcalc =
      valmcLoop pbubF velardeVal pb fuel
        (valmc_update pbubF pb rsb (pbubF rsb)) (pbubF rsb) := by
  exact if_neg h

/-- With a constant correlation missing the target, every pass of the
Newton loop leaves the state unchanged (the zero finite-difference slope
routes through the handler branch that discards its Velarde
recomputation) until the budget forces the fallback return. -/
theorem valmcLoop_const (c velardeVal pb : ℚ)
    (hc : ¬(|pb - c| ≤ 1/100000)) :
    ∀ (fuel : ℕ) (rsb pbcalc : ℚ), ¬(|pb - pbcalc| ≤ 1/100000) →
      valmcLoop (fun _ => c) velardeVal pb fuel rsb pbcalc = velardeVal := by
  intro fuel
  induction fuel with
  | zero => exact fun rsb pbcalc h => valmcLoop_zero h
  | succ fuel ih =>
    intro rsb pbcalc h
    rw [valmcLoop_step fuel h]
    exact ih _ _ hc

/-! ### Claim C5 -/

/-- C5.  At a state where the symmetric finite-difference slope
`pbub(rsb+0.5) - pbub(rsb-0.5)` is zero (here: a locally constant
correlation), the Newton update's exception handler leaves `rsb`
unchanged - the `rsbub_velarde` recomputation it performs is discarded -
so the iteration can make no progress and the whole inversion only
reaches the Velarde value via the 101st-pass budget return. -/
theorem C5_theorem :
    valmc_update (fun _ => (100:ℚ)) 200 50 100 = 50 ∧
    rsbub_valko_mccain_model (fun _ => (100:ℚ)) (fun _ => (50:ℚ)) 200 = 50 := by
  constructor
  · rw [valmc_update]
    norm_num
  · rw [rsbub_valko_mccain_model]
    exact valmcLoop_const 100 50 200 (by norm_num [abs_le]) 100 50 0
      (by norm_num [abs_le])

/-! ### Claim C4 -/

/-- C4.  The Hall-Yarborough iteration's update (source line 423,
`y -= f*dfydy(y)`, embedded as `hyUpdate` and used verbatim by `hyLoop`)
MULTIPLIES the residual by the analytic derivative instead of dividing by
it: at the state `y = 0.001` with `f(y) = y - 2`, `dfydy(y) = 4`, the code
moves to `7.997` while the Newton-Raphson update prescribed by the spec
(`newtonUpdate`) moves to `0.50075`; the two updates differ. -/
theorem C4_theorem :
    hyUpdate (fun y => y - 2) (fun _ => 4) (1/1000) = 7997/1000 ∧
    newtonUpdate (fun y => y - 2) (fun _ => 4) (1/1000) = 2003/4000 ∧
    hyUpdate (fun y => y - 2) (fun _ => 4) (1/1000) ≠
      newtonUpdate (fun y => y - 2) (fun _ => 4) (1/1000) := by
  refine ⟨by rw [hyUpdate]; norm_num, by rw [newtonUpdate]; norm_num, ?_⟩
  rw [hyUpdate, newtonUpdate]
  norm_num

/-! ### Helper lemmas for the DAK secant loop on the concrete kernel `eqCex` -/

/-- No power of two equals 5. -/
theorem two_pow_ne_five : ∀ n : ℕ, 2 ^ n ≠ 5 := by
  intro n
  cases n with
  | zero => decide
  | succ m =>
    intro h
    rw [pow_succ] at h
    omega

/-- No power of two equals 10. -/
theorem two_pow_ne_ten : ∀ n : ℕ, 2 ^ n ≠ 10 := by
  intro n
  cases n with
  | zero => decide
  | succ m =>
    intro h
    rw [pow_succ] at h
    have : 2 ^ m = 5 := by omega
    exact two_pow_ne_five m this

/-- No power of two equals 19. -/
theorem two_pow_ne_nineteen : ∀ n : ℕ, 2 ^ n ≠ 19 := by
  intro n
  cases n with
  | zero => decide
  | succ m =>
    intro h
    rw [pow_succ] at h
    omega

/-- Transfer of a rational power-of-two equation to the naturals. -/
theorem qpow_two_eq_nat (k : ℕ) (m : ℕ) (h : (2:ℚ) ^ k = (m:ℚ)) :
    2 ^ k = m := by
  have : ((2 ^ k : ℕ) : ℚ) = (m:ℚ) := by push_cast; exact h
  exact_mod_cast this

/-- The magnitude of `(-2)^k` as a rational. -/
theorem abs_neg_two_pow (k : ℕ) : |(-2:ℚ) ^ k| = 2 ^ k := by
  rw [abs_pow]
  norm_num

/-- On every point of the divergent trajectory `zdakR`, the concrete
kernel `eqCex` takes its generic branch and returns `zdakZ`. -/
theorem eqCex_regime (k : ℕ) : eqCex (zdakR k) = zdakZ k := by
  have hpow : 3 * zdakR k - 11 = (-2:ℚ) ^ k := by
    rw [zdakR]
    ring
  have h12 : zdakR k ≠ 1/2 := by
    intro h
    have hv : (-2:ℚ) ^ k = -19/2 := by rw [← hpow, h]; norm_num
    have habs : (2:ℚ) ^ k = 19/2 := by
      rw [← abs_neg_two_pow k, hv]
      norm_num
    have h2 : (2:ℚ) ^ (k + 1) = (19:ℚ) := by
      rw [pow_succ, habs]
      norm_num
    exact two_pow_ne_nineteen (k + 1)
      (qpow_two_eq_nat (k + 1) 19 (by exact_mod_cast h2))
  have h13 : zdakR k ≠ 1/3 := by
    intro h
    have hv : (-2:ℚ) ^ k = -10 := by rw [← hpow, h]; norm_num
    have habs : (2:ℚ) ^ k = 10 := by
      rw [← abs_neg_two_pow k, hv]
      norm_num
    exact two_pow_ne_ten k (qpow_two_eq_nat k 10 (by exact_mod_cast habs))
  have h2 : zdakR k ≠ 2 := by
    intro h
    have hv : (-2:ℚ) ^ k = -5 := by rw [← hpow, h]; norm_num
    have habs : (2:ℚ) ^ k = 5 := by
      rw [← abs_neg_two_pow k, hv]
      norm_num
    exact two_pow_ne_five k (qpow_two_eq_nat k 5 (by exact_mod_cast habs))
  rw [eqCex, if_neg (by push_neg; exact ⟨h12, h13⟩), if_neg h2, hpow,
    abs_neg_two_pow, zdakZ]

/-- Loop exit of the DAK secant iteration: convergence appends `z`. -/
theorem zdakLoop_exit {eq2p7 : ℚ → ℚ} {fuel : ℕ}
    {rhor z error1 rhor2 z2 error2 m : ℚ} (h : |z2 - z| ≤ 1/10000) :
    zdakLoop eq2p7 fuel rhor z error1 rhor2 z2 error2 m = some z := by
  rw [zdakLoop.eq_def]
  exact if_pos h

/-- Budget exhaustion of the DAK secant iteration: the source returns the
sentinel string for the whole call. -/
theorem zdakLoop_zero {eq2p7 : ℚ → ℚ}
    {rhor z error1 rhor2 z2 error2 m : ℚ} (h : ¬(|z2 - z| ≤ 1/10000)) :
    zdakLoop eq2p7 0 rhor z error1 rhor2 z2 error2 m = none := by
  rw [zdakLoop.eq_def]
  exact if_neg h

/-- One pass of the DAK secant iteration, with the next state supplied
explicitly. -/
theorem zdakLoop_step {eq2p7 : ℚ → ℚ} {rhor z error1 rhor2 z2 error2 m : ℚ}
    (fuel : ℕ) (rhor2N z2N error2N mN : ℚ) (h1 : ¬(|z2 - z| ≤ 1/10000))
    (h2 : (m * rhor2 - error2) / m = rhor2N) (h3 : eq2p7 rhor2N = z2N)
    (h4 : z2N - z2 = error2N)
    (h5 : (error2N - error2) / (rhor2N - rhor2) = mN) :
    zdakLoop eq2p7 (fuel + 1) rhor z error1 rhor2 z2 error2 m =
      zdakLoop eq2p7 fuel rhor2 z2 error2 rhor2N z2N error2N mN := by
  subst h2 h3 h4 h5
  exact if_neg h1

/-- The secant slope on the divergent trajectory is never zero. -/
theorem zdakM_ne_zero (k : ℕ) : zdakM k ≠ 0 := by
  rw [zdakM]
  exact div_ne_zero (pow_ne_zero k (by norm_num)) two_ne_zero

/-- On the `eqCex` kernel's divergent trajectory, the secant update maps
the closed-form reduced density at index `k` to the one at `k + 1`. -/
theorem zdak_state_R (k : ℕ) :
    (zdakM k * zdakR k - zdakE k) / zdakM k = zdakR (k + 1) := by
  rw [div_eq_iff (zdakM_ne_zero k)]
  rcases Nat.even_or_odd k with hpar | hpar
  · rw [zdakM, zdakR, zdakE, zdakR, pow_succ, hpar.neg_pow 2,
      hpar.neg_one_pow]
    ring
  · rw [zdakM, zdakR, zdakE, zdakR, pow_succ, hpar.neg_pow 2,
      hpar.neg_one_pow]
    ring

/-- Secant error recurrence on the divergent trajectory: each error is
twice the previous one. -/
theorem zdak_state_E (k : ℕ) : zdakZ (k + 1) - zdakZ k = zdakE (k + 1) := by
  rw [zdakZ, zdakZ, zdakE, pow_succ]
  ring

/-- Slope recurrence on the divergent trajectory. -/
theorem zdak_state_M (k : ℕ) :
    (zdakE (k + 1) - zdakE k) / (zdakR (k + 1) - zdakR k) = zdakM (k + 1) := by
  have ht : (2:ℚ) ^ k ≠ 0 := pow_ne_zero k two_ne_zero
  have hE : zdakE (k + 1) - zdakE k = 2 ^ k / 2 := by
    rw [zdakE, zdakE, pow_succ]
    ring
  rcases Nat.even_or_odd k with hpar | hpar
  · have hR : zdakR (k + 1) - zdakR k = -(2 ^ k) := by
      rw [zdakR, zdakR, pow_succ, hpar.neg_pow 2]
      ring
    have hm : (-1:ℚ) ^ (k + 1) = -1 := (Even.add_one hpar).neg_one_pow
    rw [hE, hR, zdakM, hm, div_eq_iff (neg_ne_zero.mpr ht)]
    ring
  · have hR : zdakR (k + 1) - zdakR k = 2 ^ k := by
      rw [zdakR, zdakR, pow_succ, hpar.neg_pow 2]
      ring
    have hm : (-1:ℚ) ^ (k + 1) = 1 := (Odd.add_one hpar).neg_one_pow
    rw [hE, hR, zdakM, hm, div_eq_iff ht]
    ring

/-- The successive-z error on the divergent trajectory always exceeds the
tolerance `1e-4`. -/
theorem zdak_state_big (k : ℕ) : ¬(|zdakZ (k + 1) - zdakZ k| ≤ 1/10000) := by
  rw [zdak_state_E k, zdakE]
  have h1 : (1:ℚ) ≤ 2 ^ (k + 1) / 2 := by
    rw [pow_succ]
    have h2 : (1:ℚ) ≤ 2 ^ k := one_le_pow₀ (by norm_num)
    nlinarith
  rw [abs_of_nonneg (by linarith)]
  intro h
  linarith

/-- From any closed-form state of the divergent trajectory, the DAK
secant loop on `eqCex` exhausts any iteration budget and yields the
sentinel (`none`).  The first three loop variables do not influence the
recursion and are generalized. -/
theorem zdak_diverges :
    ∀ (fuel k : ℕ) (a zPrev c : ℚ), ¬(|zdakZ k - zPrev| ≤ 1/10000) →
      zdakLoop eqCex fuel a zPrev c (zdakR k) (zdakZ k) (zdakE k) (zdakM k) =
        none := by
  intro fuel
  induction fuel with
  | zero => exact fun k a zPrev c h => zdakLoop_zero h
  | succ fuel ih =>
    intro k a zPrev c h
    rw [zdakLoop_step fuel (zdakR (k + 1)) (zdakZ (k + 1)) (zdakE (k + 1))
      (zdakM (k + 1)) h (zdak_state_R k) (eqCex_regime (k + 1))
      (zdak_state_E k) (zdak_state_M k)]
    exact ih (k + 1) _ _ _ (zdak_state_big k)

/-- Wrapper with the closed-form state supplied through equations, for
use at concrete numerals. -/
theorem zdak_diverges_of (fuel k : ℕ) (a zPrev c R Z E M : ℚ)
    (hR : R = zdakR k) (hZ : Z = zdakZ k) (hE : E = zdakE k)
    (hM : M = zdakM k) (h : ¬(|Z - zPrev| ≤ 1/10000)) :
    zdakLoop eqCex fuel a zPrev c R Z E M = none := by
  subst hR hZ hE hM
  exact zdak_diverges fuel k a zPrev c h

/-! ### Evaluation of the concrete kernels and the zdak element runs -/

/-- `eqCex` at the good element's first evaluation point. -/
theorem eqCex_half : eqCex (1/2) = 3/2 := by
  rw [eqCex, if_pos (Or.inl rfl)]

/-- `eqCex` at the good element's second evaluation point. -/
theorem eqCex_third : eqCex (1/3) = 3/2 := by
  rw [eqCex, if_pos (Or.inr rfl)]

/-- `eqCex` at the bad element's first evaluation point. -/
theorem eqCex_two : eqCex 2 = 1/2 := by
  rw [eqCex, if_neg (by norm_num), if_pos rfl]

/-- `eqCex` at the bad element's second evaluation point. -/
theorem eqCex_four : eqCex 4 = 1 := by
  rw [eqCex, if_neg (by norm_num), if_neg (by norm_num)]
  norm_num

/-- The `zdak` element prelude, with all intermediate values supplied
through equations, reduced to its entry into the secant loop. -/
theorem zdak_elem_eq (eq2p7 : ℚ → ℚ) (pc tr p r0 z2a r2 z2b e1 e2 m : ℚ)
    (h1 : 27/100 * (p / pc) / (tr * 1) = r0) (h2 : eq2p7 r0 = z2a)
    (h3 : 27/100 * (p / pc) / (tr * z2a) = r2) (h4 : eq2p7 r2 = z2b)
    (h5 : z2a - 1 = e1) (h6 : z2b - z2a = e2)
    (h7 : (e2 - e1) / (r2 - r0) = m) :
    zdak_elem eq2p7 pc tr p = zdakLoop eq2p7 100 r0 z2a e1 r2 z2b e2 m := by
  subst h1 h2 h3 h4 h5 h6 h7
  rfl

/-- The pressure-`1/2` element of the `eqCex` run converges at once with
`z = 3/2`. -/
theorem zdak_good_elem : zdak_elem eqCex 1 (27/100) (1/2) = some (3/2) := by
  rw [zdak_elem_eq eqCex 1 (27/100) (1/2) (1/2) (3/2) (1/3) (3/2) (1/2) 0 3
    (by norm_num) eqCex_half (by norm_num) eqCex_third (by norm_num)
    (by norm_num) (by norm_num)]
  exact zdakLoop_exit (by norm_num)

/-- The pressure-`2` element of the `eqCex` run never converges: its
prelude lands on the divergent closed-form trajectory at index 0, so the
secant loop exhausts its 100-pass budget. -/
theorem zdak_bad_elem : zdak_elem eqCex 1 (27/100) 2 = none := by
  rw [zdak_elem_eq eqCex 1 (27/100) 2 2 (1/2) 4 1 (-1/2) (1/2) (1/2)
    (by norm_num) eqCex_two (by norm_num) eqCex_four (by norm_num)
    (by norm_num) (by norm_num)]
  exact zdak_diverges_of 100 0 2 (1/2) (-1/2) 4 1 (1/2) (1/2)
    (by rw [zdakR]; norm_num) (by rw [zdakZ]; norm_num)
    (by rw [zdakE]; norm_num) (by rw [zdakM]; norm_num)
    (by norm_num [abs_le])

/-! ### Structure lemmas for the zdak element list -/

/-- A successful `zdak` list run pairs every pressure with its converged
element value, in order. -/
theorem zdak_list_sound (eq2p7 : ℚ → ℚ) (pc tr : ℚ) :
    ∀ (qs : List ℚ) (zs : List ℚ), zdak_list eq2p7 pc tr qs = some zs →
      List.Forall₂ (fun p z => zdak_elem eq2p7 pc tr p = some z) qs zs := by
  intro qs
  induction qs with
  | nil =>
    intro zs h
    rw [zdak_list] at h
    obtain rfl := Option.some.inj h
    exact List.Forall₂.nil
  | cons p ps ih =>
    intro zs h
    rw [zdak_list] at h
    cases he : zdak_elem eq2p7 pc tr p with
    | none =>
      rw [he] at h
      exact absurd h (by simp)
    | some z =>
      rw [he] at h
      obtain ⟨zs2, hz, rfl⟩ := Option.map_eq_some'.mp h
      exact List.Forall₂.cons he (ih zs2 hz)

/-- Any non-convergent element makes the whole `zdak` list run fail. -/
theorem zdak_list_none (eq2p7 : ℚ → ℚ) (pc tr : ℚ) :
    ∀ (qs : List ℚ) (p : ℚ), p ∈ qs → zdak_elem eq2p7 pc tr p = none →
      zdak_list eq2p7 pc tr qs = none := by
  intro qs
  induction qs with
  | nil =>
    intro p hp
    exact absurd hp (by simp)
  | cons q ps ih =>
    intro p hp hnone
    rw [zdak_list]
    rcases List.mem_cons.mp hp with rfl | hmem
    · rw [hnone]
    · cases he : zdak_elem eq2p7 pc tr q with
      | none => rfl
      | some z =>
        rw [ih p hmem hnone]
        rfl

/-- Shape dichotomy for `zdak` on a list input: either the bare sentinel,
or a same-length array pairing each pressure with its converged value in
order (one-element lists included: their `single_p` path keeps the
one-element ndarray). -/
theorem zdak_arr_dichotomy (eq2p7 : ℚ → ℚ) (pc tr : ℚ) (qs : List ℚ) :
    zdak_model eq2p7 pc tr (NpIn.arr qs) = ZRes.sentinel ∨
    ∃ zs, zdak_model eq2p7 pc tr (NpIn.arr qs) = ZRes.arr zs ∧
      List.Forall₂ (fun p z => zdak_elem eq2p7 pc tr p = some z) qs zs := by
  rcases qs with _ | ⟨a, _ | ⟨b, l⟩⟩
  · exact Or.inr ⟨[], rfl, List.Forall₂.nil⟩
  · cases he : zdak_elem eq2p7 pc tr a with
    | none =>
      left
      show (match zdak_elem eq2p7 pc tr a with
        | some z => ZRes.arr [z]
        | none => ZRes.sentinel) = ZRes.sentinel
      rw [he]
    | some z =>
      right
      refine ⟨[z], ?_, List.Forall₂.cons he List.Forall₂.nil⟩
      show (match zdak_elem eq2p7 pc tr a with
        | some z => ZRes.arr [z]
        | none => ZRes.sentinel) = ZRes.arr [z]
      rw [he]
  · cases hl : zdak_list eq2p7 pc tr (a :: b :: l) with
    | none =>
      left
      show (match zdak_list eq2p7 pc tr (a :: b :: l) with
        | some zs => ZRes.arr zs
        | none => ZRes.sentinel) = ZRes.sentinel
      rw [hl]
    | some zs =>
      right
      refine ⟨zs, ?_, zdak_list_sound eq2p7 pc tr _ zs hl⟩
      show (match zdak_list eq2p7 pc tr (a :: b :: l) with
        | some zs => ZRes.arr zs
        | none => ZRes.sentinel) = ZRes.arr zs
      rw [hl]

/-! ### Claim C3 -/

/-- C3 counterexample.  On the two-element input `[1/2, 2]` (with the
concrete kernel `eqCex`), the first element converges to `3/2` and the
second exhausts the 100-iteration budget - yet `zdak` returns the bare
sentinel as the ENTIRE result: the converged first element is discarded,
and no per-element sentinel array is produced. -/
theorem C3_counterexample :
    zdak_elem eqCex 1 (27/100) (1/2) = some (3/2) ∧
    zdak_elem eqCex 1 (27/100) 2 = none ∧
    zdak_model eqCex 1 (27/100) (NpIn.arr [1/2, 2]) = ZRes.sentinel := by
  refine ⟨zdak_good_elem, zdak_bad_elem, ?_⟩
  show (match zdak_list eqCex 1 (27/100) [1/2, 2] with
    | some zs => ZRes.arr zs
    | none => ZRes.sentinel) = ZRes.sentinel
  rw [zdak_list_none eqCex 1 (27/100) [1/2, 2] 2 (by simp) zdak_bad_elem]

/-- C3, amended.  When any element of a pressure array fails the DAK
convergence test within the 100-iteration budget, `gas_z` returns the
descriptive sentinel string as the WHOLE result, discarding every other
element's converged value (no per-element sentinel exists); the failure
is still soft - the function returns rather than aborting the process. -/
theorem C3_theorem :
    ∀ (eq2p7 : ℚ → ℚ) (pc tr : ℚ) (qs : List ℚ) (p : ℚ),
      p ∈ qs → zdak_elem eq2p7 pc tr p = none →
      zdak_model eq2p7 pc tr (NpIn.arr qs) = ZRes.sentinel := by
  intro eq2p7 pc tr qs p hmem hnone
  rcases qs with _ | ⟨a, _ | ⟨b, l⟩⟩
  · exact absurd hmem (by simp)
  · have ha : zdak_elem eq2p7 pc tr a = none := by
      obtain rfl : p = a := by simpa using hmem
      exact hnone
    show (match zdak_elem eq2p7 pc tr a with
      | some z => ZRes.arr [z]
      | none => ZRes.sentinel) = ZRes.sentinel
    rw [ha]
  · show (match zdak_list eq2p7 pc tr (a :: b :: l) with
      | some zs => ZRes.arr zs
      | none => ZRes.sentinel) = ZRes.sentinel
    rw [zdak_list_none eq2p7 pc tr (a :: b :: l) p hmem hnone]

/-- C3 witness: the amended theorem at the concrete non-convergent
element `2` of `eqCex`, presented as a one-element array. -/
theorem C3_witness :
    zdak_model eqCex 1 (27/100) (NpIn.arr [2]) = ZRes.sentinel :=
  C3_theorem eqCex 1 (27/100) [2] 2 (by simp) zdak_bad_elem

/-! ### Hall-Yarborough loop evaluation for the shape claims -/

/-- Loop exit of the Hall-Yarborough iteration. -/
theorem hyLoop_exit {fy dfy : ℚ → ℚ} {fuel : ℕ} {y f : ℚ}
    (h : |f| ≤ 1/100000000) : hyLoop fy dfy fuel y f = y := by
  rw [hyLoop.eq_def]
  exact if_pos h

/-- A concrete Hall-Yarborough element with an identically-zero residual:
`y` stays at its initial `0.001` and the returned Z value is
`alpha*ppr/y = 1*(2/1)/(1/1000) = 2000`. -/
theorem hy_const_elem :
    hy_elem (fun _ _ => 0) (fun _ _ => 1) 1 1 2 = 2000 := by
  simp only [hy_elem]
  rw [hyLoop_exit (by norm_num)]
  norm_num

/-! ### Claim C8 -/

/-- C8 counterexample.  On the two-element input `[1/2, 2]` (concrete
kernel `eqCex`, second element non-convergent), the DAK algorithm
returns the non-convergence sentinel string rather than a sequence of
two Z values — `ZRes.sentinel` is by construction not `ZRes.arr` of
anything — so the claimed unconditional sequence-in/sequence-out
symmetry fails for DAK.  One-element sequences, by contrast, are
preserved by all three algorithms: the `single_p` path loops over
`ps = [p]`, which keeps the one-element ndarray. -/
theorem C8_counterexample :
    zdak_model eqCex 1 (27/100) (NpIn.arr [1/2, 2]) = ZRes.sentinel ∧
    zdak_elem eqCex 1 (27/100) (1/2) = some (3/2) ∧
    zdak_model eqCex 1 (27/100) (NpIn.arr [1/2]) = ZRes.arr [3/2] ∧
    hy_model (fun _ _ => 0) (fun _ _ => 1) 1 1 (NpIn.arr [2]) =
      ZRes.arr [2000] ∧
    z_lin_model (fun q => q + 1) (NpIn.arr [2]) = ZRes.arr [3] := by
  refine ⟨?_, zdak_good_elem, ?_, ?_, ?_⟩
  · show (match zdak_list eqCex 1 (27/100) [1/2, 2] with
      | some zs => ZRes.arr zs
      | none => ZRes.sentinel) = ZRes.sentinel
    rw [zdak_list_none eqCex 1 (27/100) [1/2, 2] 2 (by simp) zdak_bad_elem]
  · show (match zdak_elem eqCex 1 (27/100) (1/2) with
      | some z => ZRes.arr [z]
      | none => ZRes.sentinel) = ZRes.arr [3/2]
    rw [zdak_good_elem]
  · show ZRes.arr [hy_elem (fun _ _ => 0) (fun _ _ => 1) 1 1 2] =
      ZRes.arr [2000]
    rw [hy_const_elem]
  · show ZRes.arr ([2].map (fun q => q + 1)) = ZRes.arr [3]
    norm_num

/-- C8, amended.  Scalar in, scalar out holds for all three algorithms,
and a sequence of n pressures comes back as a sequence of exactly n Z
values in input order — unconditionally for the linearized and
Hall-Yarborough algorithms (one-element sequences included: their
`single_p` path keeps the one-element ndarray), and for DAK whenever
every element converges; when some element exhausts DAK's iteration
budget, the whole call instead returns the non-convergence sentinel
string, not a sequence. -/
theorem C8_theorem :
    (∀ (zl : ℚ → ℚ) (q : ℚ), z_lin_model zl (NpIn.scal q) = ZRes.scal (zl q)) ∧
    (∀ (zl : ℚ → ℚ) (qs : List ℚ),
      z_lin_model zl (NpIn.arr qs) = ZRes.arr (qs.map zl)) ∧
    (∀ (fy dfy : ℚ → ℚ → ℚ) (alpha pc q : ℚ),
      hy_model fy dfy alpha pc (NpIn.scal q) =
        ZRes.scal (hy_elem fy dfy alpha pc q)) ∧
    (∀ (fy dfy : ℚ → ℚ → ℚ) (alpha pc : ℚ) (qs : List ℚ),
      hy_model fy dfy alpha pc (NpIn.arr qs) =
        ZRes.arr (qs.map (hy_elem fy dfy alpha pc))) ∧
    (∀ (eq2p7 : ℚ → ℚ) (pc tr q : ℚ),
      zdak_model eq2p7 pc tr (NpIn.scal q) = ZRes.sentinel ∨
      ∃ z, zdak_elem eq2p7 pc tr q = some z ∧
        zdak_model eq2p7 pc tr (NpIn.scal q) = ZRes.scal z) ∧
    (∀ (eq2p7 : ℚ → ℚ) (pc tr : ℚ) (qs : List ℚ),
      zdak_model eq2p7 pc tr (NpIn.arr qs) = ZRes.sentinel ∨
      ∃ zs, zdak_model eq2p7 pc tr (NpIn.arr qs) = ZRes.arr zs ∧
        List.Forall₂ (fun p z => zdak_elem eq2p7 pc tr p = some z) qs zs) := by
  refine ⟨fun zl q => rfl, fun zl qs => rfl, fun fy dfy alpha pc q => rfl,
    ?_, ?_, fun eq2p7 pc tr qs => zdak_arr_dichotomy eq2p7 pc tr qs⟩
  · intro fy dfy alpha pc qs
    rcases qs with _ | ⟨a, _ | ⟨b, l⟩⟩
    · rfl
    · rfl
    · rfl
  · intro eq2p7 pc tr q
    cases he : zdak_elem eq2p7 pc tr q with
    | none =>
      left
      show (match zdak_elem eq2p7 pc tr q with
        | some z => ZRes.scal z
        | none => ZRes.sentinel) = ZRes.sentinel
      rw [he]
    | some z =>
      right
      refine ⟨z, rfl, ?_⟩
      show (match zdak_elem eq2p7 pc tr q with
        | some z => ZRes.scal z
        | none => ZRes.sentinel) = ZRes.scal z
      rw [he]

/-- C8 witness: the amended theorem at concrete sequences - a two-element
Hall-Yarborough run and a two-element DAK run. -/
theorem C8_witness :
    hy_model (fun _ _ => (0:ℚ)) (fun _ _ => 1) 1 1 (NpIn.arr [2, 4]) =
      ZRes.arr ([2, 4].map (hy_elem (fun _ _ => 0) (fun _ _ => 1) 1 1)) ∧
    (zdak_model eqCex 1 (27/100) (NpIn.arr [1/2, 1/2]) = ZRes.sentinel ∨
      ∃ zs, zdak_model eqCex 1 (27/100) (NpIn.arr [1/2, 1/2]) = ZRes.arr zs ∧
        List.Forall₂ (fun p z => zdak_elem eqCex 1 (27/100) p = some z)
          [1/2, 1/2] zs) :=
  ⟨C8_theorem.2.2.2.1 (fun _ _ => 0) (fun _ _ => 1) 1 1 [2, 4],
   C8_theorem.2.2.2.2.2 eqCex 1 (27/100) [1/2, 1/2]⟩

end PyResToolbox
